import Mathlib

/-!
# Frequency-hopping acquisition (andruxa-smirnov/scanner)

A shallow embedding of `src/hackRFSource.cpp` and `src/bladerfSource.cpp`.

* Bytes are natural numbers; a sample is two consecutive bytes (`int8_t[2]`).
* `uint32_t` arithmetic is written out with `% UINT32`.
* Frequencies are whole numbers of Hz (the source keeps them in `double`, which is
  exact on the whole numbers that occur here).
* Driver calls (`hackrf_*`, `bladerf_*`) are external: the status each one returns is
  a field of `Driver` / `BladerfDriver`.
* `handle_error` closes the device and calls `exit(1)`; that is `Outcome.exited`.
* Two readings of the callback are kept apart. `hackRF_rx_callback` follows the statements
  of the source as the compiled program executes them, also when the `memcpy` of line 160
  runs past an array (the bytes outside are not part of the state). `hackRF_rx_callback_std`
  is the reading of the C++ standard: such a call is `Outcome.undefined`.
-/

namespace Scanner

/-- Modulus of `uint32_t` arithmetic. -/
def UINT32 : Nat := 4294967296

/-- Conversion of a C `int` to `uint32_t`. -/
def toUInt32 (z : Int) : Nat := (z % 4294967296).toNat

/-- How a piece of the program ends. -/
inductive Outcome (σ : Type) where
  /-- control returns, the object is in state `s` -/
  | ok (s : σ) : Outcome σ
  /-- a non-zero status reached `handle_error`: device closed, `exit(1)` -/
  | exited : Outcome σ
  /-- the C++ standard leaves the result undefined -/
  | undefined : Outcome σ
  /-- the loop was still running when the fuel ran out -/
  | spinning : Outcome σ
deriving DecidableEq, Repr

/-- Value of a `time_t` variable: a local that was never assigned holds no definite value. -/
inductive TimeVal where
  | value (t : Nat) : TimeVal
  | indeterminate : TimeVal
deriving DecidableEq, Repr

/-- Lifecycle states of `HackRFSource::m_streamingState`. -/
inductive StreamingState where
  | Illegal : StreamingState
  | Streaming : StreamingState
  | Done : StreamingState
deriving DecidableEq, Repr

/-- The part of `hackrf_transfer` the callback reads: `buffer` (with `buffer_length` its
length) and `valid_length`. -/
structure hackrf_transfer where
  buffer : List Nat
  valid_length : Int
deriving DecidableEq, Repr

/-- One `AppendSamples` call as seen by the downstream queue: the bytes of the
`m_sampleCount` samples found at the pointer handed over (as far as they lie inside the
buffer pointed into), the center frequency and the timestamp argument. -/
structure Envelope where
  samples : List Nat
  centerFrequency : Nat
  timestamp : TimeVal
deriving DecidableEq, Repr

/-- Modelled from the spec: the base class `SignalSource` (signalSource.h, not among the
sources). It holds the construction parameters, the frequency plan with its cursor, the
externally set completion condition and the downstream queue. -/
structure SignalSource where
  m_sampleRate : Nat
  m_sampleCount : Nat
  m_frequencies : List Nat
  m_frequencyIndex : Nat
  m_isDone : Bool
  m_sampleQueue : List Envelope
deriving DecidableEq, Repr

/-- Modelled from the spec: `SignalSource::GetIsDone`, the externally observable
completion condition. -/
def SignalSource.GetIsDone (b : SignalSource) : Bool := b.m_isDone

/-- Modelled from the spec: `SignalSource::GetFrequencyCount`, the plan length. -/
def SignalSource.GetFrequencyCount (b : SignalSource) : Nat := b.m_frequencies.length

/-- Modelled from the spec: `SignalSource::GetCurrentFrequency`, the plan entry under the
cursor. -/
def SignalSource.GetCurrentFrequency (b : SignalSource) : Nat :=
  b.m_frequencies.getD b.m_frequencyIndex 0

/-- Modelled from the spec: `SignalSource::GetIsScanStart`, whether the cursor is on the
first frequency of the pass. -/
def SignalSource.GetIsScanStart (b : SignalSource) : Bool := b.m_frequencyIndex == 0

/-- Modelled from the spec: `SignalSource::GetNextFrequency` advances the cursor
circularly, `index = (index + 1) mod length`. -/
def SignalSource.GetNextFrequency (b : SignalSource) : SignalSource :=
  { b with m_frequencyIndex := (b.m_frequencyIndex + 1) % b.m_frequencies.length }

/-- Modelled from the spec: `SampleQueue::AppendSamples`, a hand-off that records the
envelope at the back of the queue. -/
def SignalSource.AppendSamples (b : SignalSource) (e : Envelope) : SignalSource :=
  { b with m_sampleQueue := b.m_sampleQueue ++ [e] }

/-- Modelled from the spec: the `SignalSource` constructor builds the plan
`plan[i] = start + i*step` of length `floor((stop - start) / step) + 1` with
`step = sampleRate`, cursor 0. -/
def SignalSource.new (sampleRate sampleCount startFrequency stopFrequency : Nat) :
    SignalSource :=
  { m_sampleRate := sampleRate
    m_sampleCount := sampleCount
    m_frequencies := (List.range ((stopFrequency - startFrequency) / sampleRate + 1)).map
      (fun i => startFrequency + i * sampleRate)
    m_frequencyIndex := 0
    m_isDone := false
    m_sampleQueue := [] }

/-- Everything outside the repository that `hackRFSource.cpp` depends on: the status
returned by each libhackrf call, and `sizeof(fftwf_complex)` (fftw3.h) in bytes. -/
structure Driver where
  sizeof_fftwf_complex : Nat
  hackrf_init : Int
  hackrf_open : Int
  hackrf_board_id_read : Int
  hackrf_version_string_read : Int
  hackrf_set_sample_rate : Nat → Int
  hackrf_set_amp_enable : Int
  hackrf_set_freq : Nat → Int
  hackrf_start_rx : Int

/-- State of a `HackRFSource` object. `m_buffer` holds the `2 * m_sampleCount` bytes of
`new int8_t[sampleCount][2]`. Two fields are bookkeeping of the embedding: `tunedTo` is
the last frequency accepted by `hackrf_set_freq`, `overrun` records that some `memcpy`
touched bytes outside the capture buffer or outside the transfer buffer (what happens to
those bytes is not modelled). -/
structure HackRFSource extends SignalSource where
  m_streamingState : StreamingState
  m_bufferIndex : Nat
  m_didRetune : Bool
  m_buffer : List Nat
  tunedTo : Option Nat
  overrun : Bool
deriving DecidableEq, Repr

/-- Method `HackRFSource::Retune`: `hackrf_set_freq`, then `HANDLE_ERROR`. It does not touch
`m_didRetune`. -/
def HackRFSource.Retune (D : Driver) (s : HackRFSource) (centerFrequency : Nat) :
    Outcome HackRFSource :=
  if D.hackrf_set_freq centerFrequency ≠ 0 then .exited
  else .ok { s with tunedTo := some centerFrequency }

/-- What `memcpy(dst + off, src, n)` leaves in the array `dst` itself: the bytes of `src`
that exist are stored from offset `off`, and the part of the copy that runs past the end of
`dst` lands in memory that is not `dst`. A call that leaves `dst` or `src` is undefined in
C++; `HackRFSource.copyDefined` tells whether the call of line 160 stays inside. -/
def memcpy (dst : List Nat) (off : Nat) (src : List Nat) (n : Nat) : List Nat :=
  (dst.take off ++ src.take n ++ dst.drop (off + (src.take n).length)).take dst.length

/-- The locals `startIndex`, `count`, `startTime` of `hackRF_rx_callback` after the
settling block (lines 146-155). -/
structure Locals where
  startIndex : Nat
  count : Nat
  startTime : TimeVal
deriving DecidableEq, Repr

/-- Lines 146-155 of `hackRF_rx_callback`: `startIndex`, `count`, and the settling block
taken when `m_didRetune` is set. `now` is the value of `time(NULL)`. -/
def HackRFSource.settle (s : HackRFSource) (t : hackrf_transfer) (now : Nat) :
    HackRFSource × Locals :=
  let startIndex := s.m_bufferIndex
  let count := toUInt32 (Int.tdiv t.valid_length 2)
  if s.m_didRetune then
    let discardCount := s.m_sampleRate / 200 % UINT32
    ({ s with m_didRetune := false },
     { startIndex := (startIndex + discardCount) % UINT32
       count := (count + UINT32 - discardCount) % UINT32
       startTime := .value now })
  else
    (s, { startIndex := startIndex, count := count, startTime := .indeterminate })

/-- The bytes `AppendSamples` finds at `&transfer->buffer[2*i]`: `m_sampleCount` samples,
as far as the transfer buffer reaches. `2*i` is `unsigned` arithmetic. -/
def slice (t : hackrf_transfer) (sampleCount i : Nat) : List Nat :=
  (t.buffer.drop (2 * i % UINT32)).take (2 * sampleCount)

/-- The loop of lines 183-188: `for (uint32_t i = 0; i < count; i += m_sampleCount)`,
appending one envelope per iteration. -/
def appendLoop (t : hackrf_transfer) (centerFrequency : Nat) (stamp : TimeVal)
    (count : Nat) : Nat → Nat → HackRFSource → Outcome HackRFSource
  | 0, _, _ => .spinning
  | fuel + 1, i, s =>
    if i < count then
      let e : Envelope :=
        { samples := slice t s.m_sampleCount i
          centerFrequency := centerFrequency
          timestamp := stamp }
      appendLoop t centerFrequency stamp count fuel ((i + s.m_sampleCount) % UINT32)
        { s with toSignalSource := s.toSignalSource.AppendSamples e }
    else .ok s

/-- Lines 159-164 as the compiled program executes them: the copy into the capture buffer
and the cursor advance. The copy asks for `sizeof(fftwf_complex) * count` bytes; when that
leaves the `2 * m_sampleCount` bytes of `m_buffer` or the transfer buffer the field
`overrun` is set, and `hackRF_rx_callback_std` ends in `Outcome.undefined`. -/
def HackRFSource.copyIn (D : Driver) (s : HackRFSource) (t : hackrf_transfer)
    (l : Locals) : HackRFSource :=
  if s.m_bufferIndex < s.m_sampleCount then
    { s with
      m_buffer := memcpy s.m_buffer (2 * l.startIndex) t.buffer
        (D.sizeof_fftwf_complex * l.count)
      m_bufferIndex := (s.m_bufferIndex + l.count) % UINT32
      overrun := s.overrun
        || decide (s.m_buffer.length < 2 * l.startIndex + D.sizeof_fftwf_complex * l.count)
        || decide (t.buffer.length < D.sizeof_fftwf_complex * l.count) }
  else s

/-- Lines 165-175: when the cursor equals the capacity, advance the plan, retune (and
arm the settling flag) if the plan has more than one frequency, hand the capture buffer
to the queue and reset the cursor. -/
def HackRFSource.flush (D : Driver) (s : HackRFSource) (centerFrequency : Nat)
    (stamp : TimeVal) : Outcome HackRFSource :=
  if s.m_bufferIndex = s.m_sampleCount then
    let s1 : HackRFSource := { s with toSignalSource := s.toSignalSource.GetNextFrequency }
    let nextFrequency := s1.GetCurrentFrequency
    let emit (s2 : HackRFSource) : HackRFSource :=
      let e : Envelope :=
        { samples := s2.m_buffer, centerFrequency := centerFrequency, timestamp := stamp }
      { s2 with
        toSignalSource := s2.toSignalSource.AppendSamples e
        m_bufferIndex := 0 }
    if s1.GetFrequencyCount > 1 then
      match s1.Retune D nextFrequency with
      | .ok s2 => .ok (emit { s2 with m_didRetune := true })
      | o => o
    else .ok (emit s1)
  else .ok s

/-- Method `HackRFSource::hackRF_rx_callback` (lines 139-194). `now` is what `time(NULL)`
returns, `fuel` bounds the iterations of the loop of lines 183-188. -/
def HackRFSource.hackRF_rx_callback (D : Driver) (fuel now : Nat) (s : HackRFSource)
    (t : hackrf_transfer) : Outcome HackRFSource :=
  if s.GetIsDone = false then
    let centerFrequency := s.GetCurrentFrequency
    let isScanStart := s.GetIsScanStart
    let (s1, l) := s.settle t now
    let stamp := if isScanStart then l.startTime else .value 0
    if l.count < s1.m_sampleCount then
      (s1.copyIn D t l).flush D centerFrequency stamp
    else
      let s2 : HackRFSource := { s1 with toSignalSource := s1.toSignalSource.GetNextFrequency }
      appendLoop t centerFrequency stamp l.count fuel 0 s2
  else
    .ok { s with m_streamingState := .Done }

/-- Consecutive callback invocations, one per `(time, transfer)` pair. -/
def HackRFSource.feed (D : Driver) (fuel : Nat) :
    HackRFSource → List (Nat × hackrf_transfer) → Outcome HackRFSource
  | s, [] => .ok s
  | s, (now, t) :: rest =>
    match s.hackRF_rx_callback D fuel now t with
    | .ok s1 => HackRFSource.feed D fuel s1 rest
    | o => o

/-- Whether the invocation is defined in C++: `false` exactly when it reaches the `memcpy`
of line 160 and the `sizeof(fftwf_complex) * count` bytes copied leave the capture buffer
(`m_buffer + startIndex` onwards, `2 * m_sampleCount` bytes in all) or the transfer
buffer. -/
def HackRFSource.copyDefined (D : Driver) (now : Nat) (s : HackRFSource)
    (t : hackrf_transfer) : Bool :=
  if s.GetIsDone = false then
    let (s1, l) := s.settle t now
    if l.count < s1.m_sampleCount ∧ s1.m_bufferIndex < s1.m_sampleCount then
      decide (2 * l.startIndex + D.sizeof_fftwf_complex * l.count ≤ s1.m_buffer.length)
        && decide (D.sizeof_fftwf_complex * l.count ≤ t.buffer.length)
    else true
  else true

/-- The callback under the C++ standard: `Outcome.undefined` when its `memcpy` leaves an
array, else what `hackRF_rx_callback` gives. -/
def HackRFSource.hackRF_rx_callback_std (D : Driver) (fuel now : Nat) (s : HackRFSource)
    (t : hackrf_transfer) : Outcome HackRFSource :=
  if s.copyDefined D now t then s.hackRF_rx_callback D fuel now t else .undefined

/-- Consecutive callback invocations under the C++ standard. -/
def HackRFSource.feed_std (D : Driver) (fuel : Nat) :
    HackRFSource → List (Nat × hackrf_transfer) → Outcome HackRFSource
  | s, [] => .ok s
  | s, (now, t) :: rest =>
    match s.hackRF_rx_callback_std D fuel now t with
    | .ok s1 => HackRFSource.feed_std D fuel s1 rest
    | o => o

/-- Method `HackRFSource::Start` (lines 92-102). -/
def HackRFSource.Start (D : Driver) (s : HackRFSource) : Outcome HackRFSource :=
  if s.m_streamingState ≠ .Streaming then
    if D.hackrf_start_rx ≠ 0 then .exited
    else .ok { s with m_streamingState := .Streaming }
  else .ok s

/-- Method `HackRFSource::StartStreaming` (lines 215-220): `StartThread` of the base class
launches the worker thread and touches none of the fields kept here; then `Start()`. -/
def HackRFSource.StartStreaming (D : Driver) (s : HackRFSource) : Outcome HackRFSource :=
  s.Start D

/-- Method `HackRFSource::GetNextSamples`, lines 200-204: everything before the busy wait. -/
def HackRFSource.GetNextSamples_enter (s : HackRFSource) : HackRFSource :=
  { s with
    toSignalSource := s.toSignalSource.GetNextFrequency
    m_streamingState := .Streaming }

/-- Method `HackRFSource::GetNextSamples`, lines 206-212: the busy wait is left only in state
`Done` (`none` while it spins); then the retune when the plan has more than one
frequency. -/
def HackRFSource.GetNextSamples_leave (D : Driver) (s : HackRFSource) :
    Option (Outcome HackRFSource) :=
  if s.m_streamingState ≠ .Done then none
  else if s.GetFrequencyCount > 1 then
    let s1 : HackRFSource := { s with toSignalSource := s.toSignalSource.GetNextFrequency }
    some (s1.Retune D s1.GetCurrentFrequency)
  else some (.ok s)

/-- C++ `std::string::npos`. -/
def npos : Nat := 18446744073709551615

/-- Whether the character list starts with `needle`. -/
def startsWith : List Char → List Char → Bool
  | _, [] => true
  | [], _ :: _ => false
  | c :: cs, d :: ds => c == d && startsWith cs ds

/-- C++ `std::string::find`: position of the first occurrence of `needle`, counted from
`pos`, or `npos`. -/
def find (needle : List Char) : List Char → Nat → Nat
  | [], pos => if needle = [] then pos else npos
  | c :: cs, pos => if startsWith (c :: cs) needle then pos else find needle cs (pos + 1)

/-- Method `HackRFSource::set_sample_rate` (lines 104-131) as far as its statements go: an
unsupported rate sets `status = HACKRF_ERROR_OTHER`, which `HANDLE_ERROR` turns into
`exit(1)`. The function is declared `double` and has no `return` statement; its value is
not used by the caller, and here the call returns after the last statement. The reading of
the C++ standard is `set_sample_rate_std`. -/
def HackRFSource.set_sample_rate (D : Driver) (rate : Nat) : Outcome Unit :=
  let found_supported_rate :=
    [8000000, 10000000, 12500000, 16000000, 20000000].contains rate
  if found_supported_rate = false then .exited
  else if D.hackrf_set_sample_rate rate ≠ 0 then .exited
  else .ok ()

/-- The same method under the C++ standard: a call that `handle_error` does not end flows
off the end of a function declared `double`, which is undefined. -/
def HackRFSource.set_sample_rate_std (D : Driver) (rate : Nat) : Outcome Unit :=
  match HackRFSource.set_sample_rate D rate with
  | .ok _ => .undefined
  | o => o

/-- The `HackRFSource` constructor (lines 31-79) as its statements go, with
`set_sample_rate` returning after its last statement. The fresh capture buffer is shown
zero-filled. The reading of the C++ standard is `HackRFSource.new_std`. -/
def HackRFSource.new (D : Driver) (args : String)
    (sampleRate sampleCount startFrequency stopFrequency : Nat) : Outcome HackRFSource :=
  let s : HackRFSource :=
    { toSignalSource := SignalSource.new sampleRate sampleCount startFrequency stopFrequency
      m_streamingState := .Illegal
      m_bufferIndex := 0
      m_didRetune := false
      m_buffer := List.replicate (2 * sampleCount) 0
      tunedTo := none
      overrun := false }
  if D.hackrf_init ≠ 0 then .exited
  else if D.hackrf_open ≠ 0 then .exited
  else if D.hackrf_board_id_read ≠ 0 then .exited
  else if D.hackrf_version_string_read ≠ 0 then .exited
  else
    match HackRFSource.set_sample_rate D sampleRate with
    | .ok _ =>
      if find "bias".toList args.toList 0 ≠ 0 ∧ D.hackrf_set_amp_enable ≠ 0 then .exited
      else s.Retune D s.GetCurrentFrequency
    | .exited => .exited
    | .undefined => .undefined
    | .spinning => .spinning

/-- The constructor under the C++ standard: once the four opening calls succeed and
`set_sample_rate` is not ended by `handle_error`, that call flows off the end of a function
declared `double` and the constructor is undefined. -/
def HackRFSource.new_std (D : Driver) (args : String)
    (sampleRate sampleCount startFrequency stopFrequency : Nat) : Outcome HackRFSource :=
  if D.hackrf_init = 0 ∧ D.hackrf_open = 0 ∧ D.hackrf_board_id_read = 0
      ∧ D.hackrf_version_string_read = 0
      ∧ HackRFSource.set_sample_rate_std D sampleRate = .undefined then .undefined
  else HackRFSource.new D args sampleRate sampleCount startFrequency stopFrequency

/-- A driver on which every libhackrf call succeeds, with FFTW's
`typedef float fftwf_complex[2]` (8 bytes). -/
def libhackrf : Driver :=
  { sizeof_fftwf_complex := 8
    hackrf_init := 0
    hackrf_open := 0
    hackrf_board_id_read := 0
    hackrf_version_string_read := 0
    hackrf_set_sample_rate := fun _ => 0
    hackrf_set_amp_enable := 0
    hackrf_set_freq := fun _ => 0
    hackrf_start_rx := 0 }

/-! ## bladerfSource.cpp -/

/-- The two values of `bladerf_module` used by the source. -/
inductive bladerf_module where
  | BLADERF_MODULE_RX : bladerf_module
  | BLADERF_MODULE_TX : bladerf_module
deriving DecidableEq, Repr

/-- The `struct module_config` as the source fills it. -/
structure module_config where
  module : bladerf_module
  frequency : Nat
  bandwidth : Nat
  samplerate : Nat
  rx_lna : Nat
  vga1 : Int
  vga2 : Int
deriving DecidableEq, Repr

/-- Status returned by each libbladeRF call the constructor checks. -/
structure BladerfDriver where
  bladerf_open_with_devinfo : Int
  bladerf_set_frequency : bladerf_module → Nat → Int
  bladerf_set_sample_rate : bladerf_module → Nat → Int
  bladerf_set_bandwidth : bladerf_module → Nat → Int
  bladerf_set_lna_gain : Nat → Int
  bladerf_set_rxvga1 : Int → Int
  bladerf_set_rxvga2 : Int → Int
  bladerf_set_txvga1 : Int → Int
  bladerf_set_txvga2 : Int → Int
  bladerf_get_quick_tune : Nat → Int

/-- Method `BladerfSource::configure_module` (lines 17-81): the first non-zero status, else the
last one. -/
def configure_module (B : BladerfDriver) (c : module_config) : Int :=
  if B.bladerf_set_frequency c.module c.frequency ≠ 0 then
    B.bladerf_set_frequency c.module c.frequency
  else if B.bladerf_set_sample_rate c.module c.samplerate ≠ 0 then
    B.bladerf_set_sample_rate c.module c.samplerate
  else if B.bladerf_set_bandwidth c.module c.bandwidth ≠ 0 then
    B.bladerf_set_bandwidth c.module c.bandwidth
  else
    match c.module with
    | .BLADERF_MODULE_RX =>
      if B.bladerf_set_lna_gain c.rx_lna ≠ 0 then B.bladerf_set_lna_gain c.rx_lna
      else if B.bladerf_set_rxvga1 c.vga1 ≠ 0 then B.bladerf_set_rxvga1 c.vga1
      else B.bladerf_set_rxvga2 c.vga2
    | .BLADERF_MODULE_TX =>
      if B.bladerf_set_txvga1 c.vga1 ≠ 0 then B.bladerf_set_txvga1 c.vga1
      else B.bladerf_set_txvga2 c.vga2

/-- Line 173, for start and stop frequencies that are whole numbers of Hz (a `double` with
a fraction is outside this definition):
`m_numFrequencies = (stopFrequency - startFrequency)/sampleRate + 1`, a
`double` truncated towards zero into an unsigned 32-bit count. The truncation of
`(stop - start)/rate + 1` is `tdiv (stop - start + rate) rate`. The conversion is undefined
(`none`) when the truncated value is not representable, and for a zero rate (the quotient
is infinite or not a number). -/
def numFrequencies (sampleRate : Nat) (startFrequency stopFrequency : Int) : Option Nat :=
  if sampleRate = 0 then none
  else
    let v := Int.tdiv (stopFrequency - startFrequency + sampleRate) sampleRate
    if 0 ≤ v ∧ v < 4294967296 then some v.toNat else none

/-- Line 178: `m_frequencies[i] = startFrequency + i * sampleRate`. The product is
`uint32_t` arithmetic, the sum is a `double` converted to `uint32_t`; `none` when that
conversion is undefined. -/
def frequencyAt (sampleRate : Nat) (startFrequency : Int) (i : Nat) : Option Nat :=
  let v := startFrequency + ((i * sampleRate % UINT32 : Nat) : Int)
  if 0 ≤ v ∧ v < 4294967296 then some v.toNat else none

/-- Lines 177-180: the first `k` entries of `m_frequencies`. -/
def fillFrequencies (sampleRate : Nat) (startFrequency : Int) : Nat → Option (List Nat)
  | 0 => some []
  | k + 1 =>
    match fillFrequencies sampleRate startFrequency k, frequencyAt sampleRate startFrequency k with
    | some l, some f => some (l ++ [f])
    | _, _ => none

/-- Lines 173-180: the frequency count, then the frequency list. -/
def frequencyPlan (sampleRate : Nat) (startFrequency stopFrequency : Int) :
    Option (List Nat) :=
  match numFrequencies sampleRate startFrequency stopFrequency with
  | some n => fillFrequencies sampleRate startFrequency n
  | none => none

/-- The fields of `BladerfSource` the constructor sets. -/
structure BladerfSource where
  m_sampleRate : Nat
  m_sampleCount : Nat
  m_numFrequencies : Nat
  m_frequencies : List Nat
  m_quickTunes : List Nat
deriving DecidableEq, Repr

/-- Method `BladerfSource::populate_quick_tunes` (lines 83-95): per frequency a full retune and
a token request, each followed by `HANDLE_ERROR`; `true` when some status is non-zero. -/
def populate_quick_tunes_fails (B : BladerfDriver) (frequencies : List Nat) : Bool :=
  frequencies.any (fun f =>
    decide (B.bladerf_set_frequency .BLADERF_MODULE_RX f ≠ 0)
      || decide (B.bladerf_get_quick_tune f ≠ 0))

/-- The `BladerfSource` constructor (lines 110-183). -/
def BladerfSource.new (B : BladerfDriver) (sampleRate sampleCount : Nat)
    (startFrequency stopFrequency : Int) : Outcome BladerfSource :=
  if B.bladerf_open_with_devinfo ≠ 0 then .exited
  else if configure_module B
      { module := .BLADERF_MODULE_RX, frequency := 619000000, bandwidth := sampleRate,
        samplerate := sampleRate, rx_lna := 3, vga1 := 30, vga2 := 3 } ≠ 0 then .exited
  else if configure_module B
      { module := .BLADERF_MODULE_TX, frequency := 918000000, bandwidth := 1500000,
        samplerate := 250000, rx_lna := 3, vga1 := -14, vga2 := 0 } ≠ 0 then .exited
  else
    match numFrequencies sampleRate startFrequency stopFrequency,
      frequencyPlan sampleRate startFrequency stopFrequency with
    | some n, some plan =>
      if populate_quick_tunes_fails B plan then .exited
      else .ok
        { m_sampleRate := sampleRate
          m_sampleCount := sampleCount
          m_numFrequencies := n
          m_frequencies := plan
          m_quickTunes := plan }
    | _, _ => .undefined

/-- A driver on which every libbladeRF call succeeds. -/
def libbladeRF : BladerfDriver :=
  { bladerf_open_with_devinfo := 0
    bladerf_set_frequency := fun _ _ => 0
    bladerf_set_sample_rate := fun _ _ => 0
    bladerf_set_bandwidth := fun _ _ => 0
    bladerf_set_lna_gain := fun _ => 0
    bladerf_set_rxvga1 := fun _ => 0
    bladerf_set_rxvga2 := fun _ => 0
    bladerf_set_txvga1 := fun _ => 0
    bladerf_set_txvga2 := fun _ => 0
    bladerf_get_quick_tune := fun _ => 0 }

/-! ## Auxiliary definitions for the statements -/

/-- Number of samples the callback sees in a transfer: `valid_length/2` as `uint32_t`. -/
def hackrf_transfer.count (t : hackrf_transfer) : Nat := toUInt32 (Int.tdiv t.valid_length 2)

/-- The bytes of the samples of a transfer. -/
def hackrf_transfer.samples (t : hackrf_transfer) : List Nat := t.buffer.take (2 * t.count)

/-- A transfer as libhackrf delivers it: `0 ≤ valid_length ≤ buffer_length`. -/
def hackrf_transfer.wellFormed (t : hackrf_transfer) : Prop :=
  0 ≤ t.valid_length ∧ t.valid_length ≤ t.buffer.length

instance (t : hackrf_transfer) : Decidable t.wellFormed := by
  unfold hackrf_transfer.wellFormed; infer_instance

/-- The envelopes the loop of lines 183-188 appends in `m` iterations from index `i`. -/
def strides (t : hackrf_transfer) (cap centerFrequency : Nat) (stamp : TimeVal)
    (i m : Nat) : List Envelope :=
  (List.range m).map (fun j =>
    { samples := slice t cap (i + j * cap), centerFrequency := centerFrequency,
      timestamp := stamp })

/-- The object `HackRFSource("", sampleRate, sampleCount, 600e6, 620e6)` as its
constructor leaves it on `libhackrf`: a plan of `floor(20e6 / sampleRate) + 1`
frequencies, cursor on the first one, capture buffer empty, settling flag clear. -/
def constructed (sampleRate sampleCount : Nat) : HackRFSource :=
  { toSignalSource := SignalSource.new sampleRate sampleCount 600000000 620000000
    m_streamingState := .Illegal
    m_bufferIndex := 0
    m_didRetune := false
    m_buffer := List.replicate (2 * sampleCount) 0
    tunedTo := some 600000000
    overrun := false }

/-- The constructed object after `Start()` on `libhackrf`: the same fields, state
`Streaming`. This is the session the capture callback runs on. -/
def streaming (sampleRate sampleCount : Nat) : HackRFSource :=
  { constructed sampleRate sampleCount with m_streamingState := .Streaming }

/-- A transfer of `n` bytes, all of them valid, every byte equal to `b`. -/
def transferOf (n b : Nat) : hackrf_transfer := ⟨List.replicate n b, n⟩

/-- The session with the settling flag set, as the callback leaves it after its retune. -/
def armed (s : HackRFSource) : HackRFSource := { s with m_didRetune := true }

/-- The session moved to state `Done`. -/
def finished (s : HackRFSource) : HackRFSource := { s with m_streamingState := .Done }

/-- A transfer of 40001 samples: sample 0 is `(7, 9)`, sample 40000 is `(5, 6)`, the
samples between are `(0, 0)`. -/
def marked : hackrf_transfer := ⟨[7, 9] ++ List.replicate 79998 0 ++ [5, 6], 80002⟩

/-- The partition `[100, 4092]` of a 4192-sample block, delivered at times 1000 and 1001. -/
def twoChunks : List (Nat × hackrf_transfer) :=
  [(1000, transferOf 200 1), (1001, transferOf 8184 2)]

/-- A transfer in a buffer of 262144 bytes, the size libhackrf allocates, every byte `b`,
of which the first `n` are valid. -/
def transferIn (n b : Nat) : hackrf_transfer := ⟨List.replicate 262144 b, n⟩

/-- The partition `[100, 4092]` of a 4192-sample block, each chunk in a transfer buffer of
262144 bytes, delivered at times 1000 and 1001. -/
def wideChunks : List (Nat × hackrf_transfer) :=
  [(1000, transferIn 200 1), (1001, transferIn 8184 2)]

/-! ## Lemmas -/

theorem memcpy_length (dst : List Nat) (off : Nat) (src : List Nat) (n : Nat) :
    (memcpy dst off src n).length = dst.length := by
  unfold memcpy
  simp only [List.length_take, List.length_append, List.length_drop]
  omega

theorem memcpy_take (dst : List Nat) (off : Nat) (src : List Nat) (n c : Nat)
    (hc : c ≤ n) (hsrc : c ≤ src.length) (hdst : off + c ≤ dst.length) :
    (memcpy dst off src n).take (off + c) = dst.take off ++ src.take c := by
  unfold memcpy
  rw [List.take_take, Nat.min_eq_left hdst, List.append_assoc]
  have hoff : (dst.take off).length = off := by
    rw [List.length_take]; omega
  rw [List.take_append_eq_append_take, hoff]
  have h1 : List.take (off + c) (List.take off dst) = List.take off dst := by
    rw [List.take_take]; congr 1; omega
  rw [h1]
  congr 1
  have h2 : off + c - off = c := by omega
  rw [h2, List.take_append_eq_append_take, List.take_take]
  have h3 : c - (List.take n src).length = 0 := by
    rw [List.length_take]; omega
  rw [h3, Nat.min_eq_left hc]
  simp

theorem count_bound (t : hackrf_transfer) (h : t.wellFormed) :
    2 * t.count ≤ t.buffer.length := by
  obtain ⟨h0, h1⟩ := h
  unfold hackrf_transfer.count toUInt32
  rw [Int.tdiv_eq_ediv h0 (by decide)]
  omega

theorem settle_clear (s : HackRFSource) (t : hackrf_transfer) (now : Nat)
    (hflag : s.m_didRetune = false) :
    s.settle t now =
      (s, { startIndex := s.m_bufferIndex, count := t.count, startTime := .indeterminate }) := by
  simp [HackRFSource.settle, hflag, hackrf_transfer.count]

theorem flush_skip (D : Driver) (s : HackRFSource) (cf : Nat) (stamp : TimeVal)
    (h : s.m_bufferIndex ≠ s.m_sampleCount) : s.flush D cf stamp = .ok s := by
  simp [HackRFSource.flush, h]

theorem flush_emit (D : Driver) (s : HackRFSource) (cf : Nat) (stamp : TimeVal)
    (hdev : ∀ f, D.hackrf_set_freq f = 0) (h : s.m_bufferIndex = s.m_sampleCount) :
    ∃ s1, s.flush D cf stamp = .ok s1 ∧
      s1.m_sampleQueue = s.m_sampleQueue ++
        [{ samples := s.m_buffer, centerFrequency := cf, timestamp := stamp }] ∧
      s1.m_bufferIndex = 0 := by
  unfold HackRFSource.flush
  rw [if_pos h]
  by_cases hc : (1 : Nat) < s.m_frequencies.length
  · simp [SignalSource.GetFrequencyCount, SignalSource.GetNextFrequency, hc,
      HackRFSource.Retune, hdev, SignalSource.AppendSamples]
  · simp [SignalSource.GetFrequencyCount, SignalSource.GetNextFrequency, hc,
      SignalSource.AppendSamples]

theorem strides_succ (t : hackrf_transfer) (cap cf : Nat) (stamp : TimeVal) (i m : Nat) :
    strides t cap cf stamp i (m + 1) =
      { samples := slice t cap i, centerFrequency := cf, timestamp := stamp } ::
        strides t cap cf stamp (i + cap) m := by
  unfold strides
  rw [List.range_succ_eq_map, List.map_cons, List.map_map]
  simp only [Nat.zero_mul, Nat.add_zero, List.cons.injEq, true_and]
  apply List.map_congr_left
  intro j _
  simp only [Function.comp, Nat.succ_eq_add_one]
  congr 2
  ring

theorem appendLoop_run (t : hackrf_transfer) (cf : Nat) (stamp : TimeVal) (count : Nat) :
    ∀ (m fuel i : Nat) (s : HackRFSource), m < fuel →
      (∀ j, j < m → i + j * s.m_sampleCount < count) →
      count ≤ i + m * s.m_sampleCount →
      i + m * s.m_sampleCount < UINT32 →
      appendLoop t cf stamp count fuel i s =
        .ok { s with toSignalSource :=
          { s.toSignalSource with m_sampleQueue :=
              s.m_sampleQueue ++ strides t s.m_sampleCount cf stamp i m } } := by
  intro m
  induction m with
  | zero =>
    intro fuel i s hf _ hc _
    obtain ⟨f, rfl⟩ : ∃ f, fuel = f + 1 := ⟨fuel - 1, by omega⟩
    have : ¬ i < count := by omega
    simp [appendLoop, this, strides]
  | succ m ih =>
    intro fuel i s hf hlt hc hw
    obtain ⟨f, rfl⟩ : ∃ f, fuel = f + 1 := ⟨fuel - 1, by omega⟩
    have h0 : i < count := by simpa using hlt 0 (by omega)
    have hstep : i + s.m_sampleCount < UINT32 := by
      have : s.m_sampleCount ≤ (m + 1) * s.m_sampleCount := Nat.le_mul_of_pos_left _ (by omega)
      omega
    have hmod : (i + s.m_sampleCount) % UINT32 = i + s.m_sampleCount := Nat.mod_eq_of_lt hstep
    have hexp : (m + 1) * s.m_sampleCount = s.m_sampleCount + m * s.m_sampleCount := by ring
    rw [appendLoop, if_pos h0]
    simp only [hmod]
    rw [ih f (i + s.m_sampleCount) _ (by omega)]
    · simp only [SignalSource.AppendSamples, strides_succ, List.append_assoc, List.singleton_append]
    · intro j hj
      have := hlt (j + 1) (by omega)
      simp only [SignalSource.AppendSamples]
      have e : (j + 1) * s.m_sampleCount = s.m_sampleCount + j * s.m_sampleCount := by ring
      omega
    · simp only [SignalSource.AppendSamples]; omega
    · simp only [SignalSource.AppendSamples]; omega


theorem rest_nil (rest : List (Nat × hackrf_transfer))
    (hwf : ∀ c ∈ rest, c.2.wellFormed ∧ 1 ≤ c.2.count)
    (hsum : (rest.map (fun c => c.2.count)).sum = 0) : rest = [] := by
  cases rest with
  | nil => rfl
  | cons c r =>
    have := (hwf c (List.mem_cons_self _ _)).2
    simp only [List.map_cons, List.sum_cons] at hsum
    omega

theorem memcpy_drop_take (dst : List Nat) (off : Nat) (src : List Nat) (n c : Nat)
    (hc : c ≤ n) (hsrc : c ≤ src.length) (hdst : off + c ≤ dst.length) :
    ((memcpy dst off src n).drop off).take c = src.take c := by
  have h := memcpy_take dst off src n c hc hsrc hdst
  have h2 : ((memcpy dst off src n).drop off).take c
      = ((memcpy dst off src n).take (off + c)).drop off := by
    rw [List.drop_take]; congr 1; omega
  rw [h2, h, List.drop_append_of_le_length (by rw [List.length_take]; omega)]
  rw [List.drop_of_length_le (by rw [List.length_take]; omega)]
  simp

theorem settle_sampleCount (s : HackRFSource) (t : hackrf_transfer) (now : Nat) :
    (s.settle t now).1.m_sampleCount = s.m_sampleCount := by
  unfold HackRFSource.settle
  split <;> rfl

theorem settle_armed (s : HackRFSource) (t : hackrf_transfer) (now : Nat)
    (hflag : s.m_didRetune = true) :
    s.settle t now =
      ({ s with m_didRetune := false },
       { startIndex := (s.m_bufferIndex + s.m_sampleRate / 200 % UINT32) % UINT32
         count := (t.count + UINT32 - s.m_sampleRate / 200 % UINT32) % UINT32
         startTime := .value now }) := by
  simp [HackRFSource.settle, hflag, hackrf_transfer.count]

theorem callback_small (D : Driver) (fuel now : Nat) (s : HackRFSource) (t : hackrf_transfer)
    (s1 : HackRFSource) (l : Locals)
    (hdone : s.m_isDone = false) (hs : s.settle t now = (s1, l))
    (hlt : l.count < s.m_sampleCount) :
    s.hackRF_rx_callback D fuel now t =
      (s1.copyIn D t l).flush D s.GetCurrentFrequency
        (if s.GetIsScanStart then l.startTime else .value 0) := by
  have h := settle_sampleCount s t now
  rw [hs] at h
  simp only at h
  simp [HackRFSource.hackRF_rx_callback, SignalSource.GetIsDone, hdone, hs, h, hlt]

theorem callback_large (D : Driver) (fuel now : Nat) (s : HackRFSource) (t : hackrf_transfer)
    (s1 : HackRFSource) (l : Locals)
    (hdone : s.m_isDone = false) (hs : s.settle t now = (s1, l))
    (hge : s.m_sampleCount ≤ l.count) :
    s.hackRF_rx_callback D fuel now t =
      appendLoop t s.GetCurrentFrequency (if s.GetIsScanStart then l.startTime else .value 0)
        l.count fuel 0 { s1 with toSignalSource := s1.toSignalSource.GetNextFrequency } := by
  have h := settle_sampleCount s t now
  rw [hs] at h
  simp only at h
  have : ¬ l.count < s.m_sampleCount := by omega
  simp [HackRFSource.hackRF_rx_callback, SignalSource.GetIsDone, hdone, hs, h, this]

theorem copyIn_eq (D : Driver) (s : HackRFSource) (t : hackrf_transfer) (l : Locals)
    (hk : s.m_bufferIndex < s.m_sampleCount) :
    s.copyIn D t l =
      { s with
        m_buffer := memcpy s.m_buffer (2 * l.startIndex) t.buffer
          (D.sizeof_fftwf_complex * l.count)
        m_bufferIndex := (s.m_bufferIndex + l.count) % UINT32
        overrun := s.overrun
          || decide (s.m_buffer.length < 2 * l.startIndex + D.sizeof_fftwf_complex * l.count)
          || decide (t.buffer.length < D.sizeof_fftwf_complex * l.count) } := by
  simp [HackRFSource.copyIn, hk]

theorem fill_run (D : Driver) (fuel : Nat) (hsz : 2 ≤ D.sizeof_fftwf_complex)
    (hdev : ∀ f, D.hackrf_set_freq f = 0) (hfuel : 2 ≤ fuel) :
    ∀ (chunks : List (Nat × hackrf_transfer)) (s : HackRFSource),
      chunks ≠ [] → s.m_isDone = false → s.m_didRetune = false →
      s.m_sampleCount < UINT32 → s.m_buffer.length = 2 * s.m_sampleCount →
      (∀ c ∈ chunks, c.2.wellFormed ∧ 1 ≤ c.2.count) →
      s.m_bufferIndex + (chunks.map (fun c => c.2.count)).sum = s.m_sampleCount →
      ∃ s1, s.feed D fuel chunks = .ok s1 ∧
        s1.m_sampleQueue = s.m_sampleQueue ++
          [{ samples := s.m_buffer.take (2 * s.m_bufferIndex) ++
               (chunks.map (fun c => c.2.samples)).flatten
             centerFrequency := s.GetCurrentFrequency
             timestamp := if s.GetIsScanStart then .indeterminate else .value 0 }] ∧
        s1.m_bufferIndex = 0 := by
  intro chunks
  induction chunks with
  | nil => intro s hne; exact absurd rfl hne
  | cons c rest ih =>
    intro s _ hdone hflag h32 hbuf hwf hsum
    obtain ⟨now, t⟩ := c
    have hwt : t.wellFormed ∧ 1 ≤ t.count := hwf (now, t) (List.mem_cons_self _ _)
    have hwr : ∀ c ∈ rest, c.2.wellFormed ∧ 1 ≤ c.2.count :=
      fun c hc => hwf c (List.mem_cons_of_mem _ hc)
    have hsrc := count_bound t hwt.1
    simp only [List.map_cons, List.sum_cons] at hsum
    rw [HackRFSource.feed]
    by_cases hlt : t.count < s.m_sampleCount
    · rw [callback_small D fuel now s t _ _ hdone (settle_clear s t now hflag) hlt]
      have hk : s.m_bufferIndex < s.m_sampleCount := by omega
      have hmod : (s.m_bufferIndex + t.count) % UINT32 = s.m_bufferIndex + t.count :=
        Nat.mod_eq_of_lt (by omega)
      have hn : 2 * t.count ≤ D.sizeof_fftwf_complex * t.count := Nat.mul_le_mul_right _ hsz
      have htk := memcpy_take s.m_buffer (2 * s.m_bufferIndex) t.buffer
        (D.sizeof_fftwf_complex * t.count) (2 * t.count) hn hsrc (by omega)
      rw [copyIn_eq D s t _ hk]
      simp only [hmod]
      by_cases hfull : s.m_bufferIndex + t.count = s.m_sampleCount
      · have hr : rest = [] := rest_nil rest hwr (by omega)
        subst hr
        obtain ⟨s1, h1, h2, h3⟩ := flush_emit D
          { s with
            m_buffer := memcpy s.m_buffer (2 * s.m_bufferIndex) t.buffer
              (D.sizeof_fftwf_complex * t.count)
            m_bufferIndex := s.m_bufferIndex + t.count
            overrun := s.overrun
              || decide (s.m_buffer.length <
                  2 * s.m_bufferIndex + D.sizeof_fftwf_complex * t.count)
              || decide (t.buffer.length < D.sizeof_fftwf_complex * t.count) }
          s.GetCurrentFrequency
          (if s.GetIsScanStart then .indeterminate else .value 0) hdev hfull
        refine ⟨s1, ?_, ?_, h3⟩
        · rw [h1]; rfl
        · rw [h2]
          simp only [List.map_cons, List.map_nil, List.flatten_cons, List.flatten_nil,
            List.append_nil, hackrf_transfer.samples]
          rw [← htk, List.take_of_length_le]
          rw [memcpy_length]; omega
      · rw [flush_skip _ _ _ _ hfull]
        have hne : rest ≠ [] := by
          intro h; subst h; simp at hsum; omega
        obtain ⟨s1, h1, h2, h4⟩ := ih
          { s with
            m_buffer := memcpy s.m_buffer (2 * s.m_bufferIndex) t.buffer
              (D.sizeof_fftwf_complex * t.count)
            m_bufferIndex := s.m_bufferIndex + t.count
            overrun := s.overrun
              || decide (s.m_buffer.length <
                  2 * s.m_bufferIndex + D.sizeof_fftwf_complex * t.count)
              || decide (t.buffer.length < D.sizeof_fftwf_complex * t.count) }
          hne hdone hflag h32 (by simp only [memcpy_length]; exact hbuf) hwr
          (by simp only; omega)
        refine ⟨s1, h1, ?_, h4⟩
        rw [h2]
        simp only [List.map_cons, List.flatten_cons, hackrf_transfer.samples]
        rw [Nat.mul_add, htk, List.append_assoc]
    · have hr : rest = [] := rest_nil rest hwr (by omega)
      subst hr
      simp only [List.map_nil, List.sum_nil] at hsum
      have hk0 : s.m_bufferIndex = 0 := by omega
      have hcc : t.count = s.m_sampleCount := by omega
      rw [callback_large D fuel now s t _ _ hdone (settle_clear s t now hflag)
        (show s.m_sampleCount ≤ t.count by omega)]
      have hrun := appendLoop_run t s.GetCurrentFrequency
        (if s.GetIsScanStart then .indeterminate else .value 0) t.count 1 fuel 0
        { s with toSignalSource := s.toSignalSource.GetNextFrequency } (by omega)
        (by intro j hj
            have : j = 0 := by omega
            subst this
            simp only [SignalSource.GetNextFrequency]; omega)
        (by simp only [SignalSource.GetNextFrequency]; omega)
        (by simp only [SignalSource.GetNextFrequency]; omega)
      rw [hrun]
      refine ⟨_, rfl, ?_, hk0⟩
      simp only [SignalSource.GetNextFrequency, strides, List.range_succ, List.range_zero,
        List.nil_append, List.map_cons, List.map_nil, Nat.zero_mul, Nat.add_zero,
        slice, hk0, hackrf_transfer.samples, hcc, Nat.mul_zero, List.take_zero,
        List.flatten_cons, List.flatten_nil, List.append_nil, Nat.zero_mod, List.drop_zero]

theorem transferOf_wellFormed (n b : Nat) : (transferOf n b).wellFormed := by
  refine ⟨Int.ofNat_nonneg n, ?_⟩
  show (n : Int) ≤ ((List.replicate n b).length : Int)
  rw [List.length_replicate]


theorem transferOf_length (n b : Nat) : (transferOf n b).buffer.length = n :=
  List.length_replicate n b

theorem strides_length (t : hackrf_transfer) (cap cf : Nat) (stamp : TimeVal) (i m : Nat) :
    (strides t cap cf stamp i m).length = m := by
  unfold strides
  rw [List.length_map, List.length_range]

theorem constructed_buffer_length (r c : Nat) : (constructed r c).m_buffer.length = 2 * c :=
  List.length_replicate _ _

theorem streaming_buffer_length (r c : Nat) : (streaming r c).m_buffer.length = 2 * c :=
  List.length_replicate _ _

theorem start_constructed (r c : Nat) :
    (constructed r c).Start libhackrf = .ok (streaming r c) := rfl

theorem marked_length : marked.buffer.length = 80002 := by
  show ([7, 9] ++ List.replicate 79998 0 ++ [5, 6]).length = 80002
  rw [List.length_append, List.length_append, List.length_replicate]
  rfl

theorem slice_length (t : hackrf_transfer) (cap i : Nat) :
    (slice t cap i).length = min (2 * cap) (t.buffer.length - 2 * i % UINT32) := by
  unfold slice
  rw [List.length_take, List.length_drop]


theorem mem_memcpy (dst : List Nat) (off : Nat) (src : List Nat) (n x : Nat)
    (h : x ∈ memcpy dst off src n) : x ∈ dst ∨ x ∈ src.take n := by
  unfold memcpy at h
  have h1 := List.mem_of_mem_take h
  rw [List.mem_append, List.mem_append] at h1
  rcases h1 with (h2 | h2) | h2
  · exact Or.inl (List.mem_of_mem_take h2)
  · exact Or.inr h2
  · exact Or.inl (List.mem_of_mem_drop h2)

theorem callback_fill_clear (D : Driver) (fuel now : Nat) (s : HackRFSource)
    (t : hackrf_transfer) (hdone : s.m_isDone = false) (hflag : s.m_didRetune = false)
    (hlt : t.count < s.m_sampleCount) (hk : s.m_bufferIndex < s.m_sampleCount)
    (hne : (s.m_bufferIndex + t.count) % UINT32 ≠ s.m_sampleCount) :
    s.hackRF_rx_callback D fuel now t = .ok
      { s with
        m_buffer := memcpy s.m_buffer (2 * s.m_bufferIndex) t.buffer
          (D.sizeof_fftwf_complex * t.count)
        m_bufferIndex := (s.m_bufferIndex + t.count) % UINT32
        overrun := s.overrun
          || decide (s.m_buffer.length < 2 * s.m_bufferIndex + D.sizeof_fftwf_complex * t.count)
          || decide (t.buffer.length < D.sizeof_fftwf_complex * t.count) } := by
  rw [callback_small D fuel now s t _ _ hdone (settle_clear s t now hflag) hlt,
    copyIn_eq D s t _ hk, flush_skip _ _ _ _ hne]

theorem fill_step (D : Driver) (fuel now : Nat) (s : HackRFSource)
    (t : hackrf_transfer) (hdone : s.m_isDone = false) (hflag : s.m_didRetune = false)
    (hlt : t.count < s.m_sampleCount) (hk : s.m_bufferIndex < s.m_sampleCount)
    (hne : (s.m_bufferIndex + t.count) % UINT32 ≠ s.m_sampleCount) :
    ∃ s1, s.hackRF_rx_callback D fuel now t = .ok s1 ∧
      s1.m_bufferIndex = (s.m_bufferIndex + t.count) % UINT32 ∧
      s1.toSignalSource = s.toSignalSource ∧ s1.m_didRetune = false :=
  ⟨_, callback_fill_clear D fuel now s t hdone hflag hlt hk hne, rfl, rfl, hflag⟩


theorem twoChunks_ok : ∀ c ∈ twoChunks, c.2.wellFormed ∧ 1 ≤ c.2.count := by
  intro c hc
  simp only [twoChunks, List.mem_cons, List.mem_singleton, List.not_mem_nil, or_false] at hc
  rcases hc with rfl | rfl
  · exact ⟨transferOf_wellFormed _ _, by decide⟩
  · exact ⟨transferOf_wellFormed _ _, by decide⟩


theorem appendLoop_state (t : hackrf_transfer) (cf : Nat) (stamp : TimeVal) (count : Nat) :
    ∀ (fuel i : Nat) (s s1 : HackRFSource),
      appendLoop t cf stamp count fuel i s = .ok s1 →
      s1.m_streamingState = s.m_streamingState := by
  intro fuel
  induction fuel with
  | zero => intro i s s1 h; simp [appendLoop] at h
  | succ n ih =>
    intro i s s1 h
    rw [appendLoop] at h
    by_cases hi : i < count
    · rw [if_pos hi] at h
      have h2 := ih _ _ _ h
      exact h2
    · rw [if_neg hi] at h
      injection h with h
      rw [h]

theorem settle_state (s : HackRFSource) (t : hackrf_transfer) (now : Nat) :
    (s.settle t now).1.m_streamingState = s.m_streamingState := by
  unfold HackRFSource.settle
  split <;> rfl

theorem copyIn_state (D : Driver) (s : HackRFSource) (t : hackrf_transfer) (l : Locals) :
    (s.copyIn D t l).m_streamingState = s.m_streamingState := by
  unfold HackRFSource.copyIn
  split <;> rfl

theorem retune_ok (D : Driver) (s s2 : HackRFSource) (f : Nat)
    (h : s.Retune D f = .ok s2) : s2 = { s with tunedTo := some f } := by
  unfold HackRFSource.Retune at h
  split at h
  · cases h
  · injection h with h
    exact h.symm

theorem flush_state (D : Driver) (s s1 : HackRFSource) (cf : Nat) (stamp : TimeVal)
    (h : s.flush D cf stamp = .ok s1) : s1.m_streamingState = s.m_streamingState := by
  unfold HackRFSource.flush at h
  split at h
  · dsimp only at h
    split at h
    · split at h
      · rename_i s2 hR
        injection h with h
        rw [← h, retune_ok _ _ _ _ hR]
      · rename_i hno
        exact absurd h (hno s1)
    · injection h with h
      rw [← h]
  · injection h with h
    rw [h]

theorem callback_state (D : Driver) (fuel now : Nat) (s s1 : HackRFSource)
    (t : hackrf_transfer) (h : s.hackRF_rx_callback D fuel now t = .ok s1) :
    s1.m_streamingState = .Done ∨ s1.m_streamingState = s.m_streamingState := by
  unfold HackRFSource.hackRF_rx_callback at h
  by_cases hd : s.GetIsDone = false
  · rw [if_pos hd] at h
    right
    by_cases hl : (s.settle t now).2.count < (s.settle t now).1.m_sampleCount
    · simp only [hl, if_true] at h
      rw [flush_state _ _ _ _ _ h, copyIn_state, settle_state]
    · simp only [hl, if_false] at h
      rw [appendLoop_state _ _ _ _ _ _ _ _ h]
      exact settle_state s t now
  · rw [if_neg hd] at h
    injection h with h
    left
    rw [← h]


theorem fillFrequencies_eq (rate : Nat) (start : Nat) :
    ∀ n : Nat, (∀ i, i < n → start + i * rate < 4294967296) →
      fillFrequencies rate (start : Int) n =
        some ((List.range n).map (fun i => start + i * rate)) := by
  intro n
  induction n with
  | zero => intro _; rfl
  | succ k ih =>
    intro h
    have hk := h k (Nat.lt_succ_self k)
    have hm : k * rate % UINT32 = k * rate := Nat.mod_eq_of_lt (by unfold UINT32; omega)
    have hf : frequencyAt rate (start : Int) k = some (start + k * rate) := by
      unfold frequencyAt
      simp only [hm]
      have h1 : (0 : Int) ≤ (start : Int) + ((k * rate : Nat) : Int) := by positivity
      have h2 : (start : Int) + ((k * rate : Nat) : Int) < 4294967296 := by
        have : ((start + k * rate : Nat) : Int) < 4294967296 := by exact_mod_cast hk
        simpa using this
      rw [if_pos ⟨h1, h2⟩]
      congr 1
    rw [fillFrequencies, ih (fun i hi => h i (Nat.lt_succ_of_lt hi)), hf]
    simp only [List.range_succ, List.map_append, List.map_cons, List.map_nil]

theorem numFrequencies_eq (rate start stop : Nat) (hrate : 0 < rate) (hle : start ≤ stop)
    (hcount : (stop - start) / rate + 1 < 4294967296) :
    numFrequencies rate (start : Int) (stop : Int) = some ((stop - start) / rate + 1) := by
  unfold numFrequencies
  rw [if_neg (by omega)]
  have hcast : (stop : Int) - (start : Int) + (rate : Int) = ((stop - start + rate : Nat) : Int) := by
    omega
  have hv : Int.tdiv ((stop : Int) - (start : Int) + (rate : Int)) (rate : Int)
      = (((stop - start) / rate + 1 : Nat) : Int) := by
    rw [hcast, ← Int.ofNat_tdiv, Nat.add_div_right _ hrate]
  simp only [hv]
  rw [if_pos ⟨by positivity, by exact_mod_cast hcount⟩]
  rfl


theorem armed_step (D : Driver) (fuel now : Nat) (s : HackRFSource) (t : hackrf_transfer)
    (hdone : s.m_isDone = false) (hflag : s.m_didRetune = true)
    (hlt : (t.count + UINT32 - s.m_sampleRate / 200 % UINT32) % UINT32 < s.m_sampleCount)
    (hk : s.m_bufferIndex < s.m_sampleCount)
    (hne : (s.m_bufferIndex + (t.count + UINT32 - s.m_sampleRate / 200 % UINT32) % UINT32)
      % UINT32 ≠ s.m_sampleCount) :
    ∃ s1, s.hackRF_rx_callback D fuel now t = .ok s1 ∧
      s1.m_bufferIndex =
        (s.m_bufferIndex + (t.count + UINT32 - s.m_sampleRate / 200 % UINT32) % UINT32)
          % UINT32 ∧
      s1.toSignalSource = s.toSignalSource ∧ s1.m_didRetune = false ∧
      s1.m_buffer = memcpy s.m_buffer
        (2 * ((s.m_bufferIndex + s.m_sampleRate / 200 % UINT32) % UINT32)) t.buffer
        (D.sizeof_fftwf_complex *
          ((t.count + UINT32 - s.m_sampleRate / 200 % UINT32) % UINT32)) := by
  rw [callback_small D fuel now s t _ _ hdone (settle_armed s t now hflag) hlt,
    copyIn_eq D { s with m_didRetune := false } t _ hk, flush_skip _ _ _ _ hne]
  exact ⟨_, rfl, rfl, rfl, rfl, rfl⟩

theorem flush_step (D : Driver) (fuel now : Nat) (s : HackRFSource) (t : hackrf_transfer)
    (hdev : ∀ f, D.hackrf_set_freq f = 0)
    (hdone : s.m_isDone = false) (hflag : s.m_didRetune = false)
    (hlt : t.count < s.m_sampleCount) (hk : s.m_bufferIndex < s.m_sampleCount)
    (heq : (s.m_bufferIndex + t.count) % UINT32 = s.m_sampleCount) :
    ∃ s1, s.hackRF_rx_callback D fuel now t = .ok s1 ∧
      s1.m_sampleQueue = s.m_sampleQueue ++
        [{ samples := memcpy s.m_buffer (2 * s.m_bufferIndex) t.buffer
             (D.sizeof_fftwf_complex * t.count)
           centerFrequency := s.GetCurrentFrequency
           timestamp := if s.GetIsScanStart then .indeterminate else .value 0 }] ∧
      s1.m_bufferIndex = 0 := by
  rw [callback_small D fuel now s t _ _ hdone (settle_clear s t now hflag) hlt,
    copyIn_eq D s t _ hk]
  exact flush_emit D _ s.GetCurrentFrequency
    (if s.GetIsScanStart then .indeterminate else .value 0) hdev heq

theorem copyIn_overrun (D : Driver) (s : HackRFSource) (t : hackrf_transfer) (l : Locals)
    (hk : s.m_bufferIndex < s.m_sampleCount)
    (h : s.m_buffer.length < 2 * l.startIndex + D.sizeof_fftwf_complex * l.count) :
    (s.copyIn D t l).overrun = true := by
  rw [copyIn_eq D s t l hk]
  simp [h]

theorem flush_overrun (D : Driver) (s s1 : HackRFSource) (cf : Nat) (stamp : TimeVal)
    (h : s.flush D cf stamp = .ok s1) : s1.overrun = s.overrun := by
  unfold HackRFSource.flush at h
  split at h
  · dsimp only at h
    split at h
    · split at h
      · rename_i s2 hR
        injection h with h
        rw [← h, retune_ok _ _ _ _ hR]
      · rename_i hno
        exact absurd h (hno s1)
    · injection h with h
      rw [← h]
  · injection h with h
    rw [h]

theorem callback_overrun (D : Driver) (fuel now : Nat) (s s1 : HackRFSource)
    (t : hackrf_transfer) (hdone : s.m_isDone = false) (hflag : s.m_didRetune = false)
    (hlt : t.count < s.m_sampleCount) (hk : s.m_bufferIndex < s.m_sampleCount)
    (hover : s.m_buffer.length < 2 * s.m_bufferIndex + D.sizeof_fftwf_complex * t.count)
    (h : s.hackRF_rx_callback D fuel now t = .ok s1) : s1.overrun = true := by
  rw [callback_small D fuel now s t _ _ hdone (settle_clear s t now hflag) hlt] at h
  rw [flush_overrun _ _ _ _ _ h]
  exact copyIn_overrun D s t _ hk hover

theorem fill_step_length (D : Driver) (fuel now : Nat) (s s1 : HackRFSource)
    (t : hackrf_transfer) (hdone : s.m_isDone = false) (hflag : s.m_didRetune = false)
    (hlt : t.count < s.m_sampleCount) (hk : s.m_bufferIndex < s.m_sampleCount)
    (hne : (s.m_bufferIndex + t.count) % UINT32 ≠ s.m_sampleCount)
    (h : s.hackRF_rx_callback D fuel now t = .ok s1) :
    s1.m_buffer.length = s.m_buffer.length := by
  rw [callback_fill_clear D fuel now s t hdone hflag hlt hk hne] at h
  injection h with h
  rw [← h]
  exact memcpy_length _ _ _ _

/-- The run on `twoChunks` writes behind the end of the capture buffer: the second
`memcpy` asks for `8 * 4092` bytes from byte 200 of a buffer of 8384 bytes. -/
theorem twoChunks_overrun :
    ∃ s1 s2,
      (streaming 20000000 4192).hackRF_rx_callback libhackrf 2 1000 (transferOf 200 1)
        = .ok s1 ∧
      s1.hackRF_rx_callback libhackrf 2 1001 (transferOf 8184 2) = .ok s2 ∧
      s2.overrun = true := by
  obtain ⟨s1, h1, hb1, hg1, hf1⟩ := fill_step libhackrf 2 1000 (streaming 20000000 4192)
    (transferOf 200 1) rfl rfl (by decide) (by decide) (by decide)
  have hl1 : s1.m_buffer.length = 2 * 4192 := by
    rw [fill_step_length libhackrf 2 1000 (streaming 20000000 4192) s1 (transferOf 200 1)
      rfl rfl (by decide) (by decide) (by decide) h1]
    exact streaming_buffer_length 20000000 4192
  have hi1 : s1.m_bufferIndex = 100 := by rw [hb1]; decide
  have hc1 : s1.m_sampleCount = 4192 := by
    show s1.toSignalSource.m_sampleCount = 4192
    rw [hg1]; rfl
  have hd1 : s1.m_isDone = false := by
    show s1.toSignalSource.m_isDone = false
    rw [hg1]; rfl
  obtain ⟨s2, h2, _, _⟩ := flush_step libhackrf 2 1001 s1 (transferOf 8184 2)
    (fun _ => rfl) hd1 hf1 (by rw [hc1]; decide) (by rw [hc1, hi1]; decide)
    (by rw [hc1, hi1]; decide)
  exact ⟨s1, s2, h1, h2, callback_overrun libhackrf 2 1001 s1 s2 (transferOf 8184 2) hd1 hf1
    (by rw [hc1]; decide) (by rw [hc1, hi1]; decide) (by rw [hl1, hi1]; decide) h2⟩

theorem transferIn_length (n b : Nat) : (transferIn n b).buffer.length = 262144 :=
  List.length_replicate _ _

theorem copyDefined_clear (D : Driver) (now : Nat) (s : HackRFSource) (t : hackrf_transfer)
    (hdone : s.m_isDone = false) (hflag : s.m_didRetune = false) :
    s.copyDefined D now t =
      if t.count < s.m_sampleCount ∧ s.m_bufferIndex < s.m_sampleCount then
        decide (2 * s.m_bufferIndex + D.sizeof_fftwf_complex * t.count ≤ s.m_buffer.length)
          && decide (D.sizeof_fftwf_complex * t.count ≤ t.buffer.length)
      else true := by
  simp only [HackRFSource.copyDefined, SignalSource.GetIsDone, hdone, if_true,
    settle_clear s t now hflag]

theorem copyDefined_inside (D : Driver) (now : Nat) (s : HackRFSource) (t : hackrf_transfer)
    (hdone : s.m_isDone = false) (hflag : s.m_didRetune = false)
    (hdst : 2 * s.m_bufferIndex + D.sizeof_fftwf_complex * t.count ≤ s.m_buffer.length)
    (hsrc : D.sizeof_fftwf_complex * t.count ≤ t.buffer.length) :
    s.copyDefined D now t = true := by
  rw [copyDefined_clear D now s t hdone hflag]
  split
  · simp [hdst, hsrc]
  · rfl

theorem copyDefined_outside (D : Driver) (now : Nat) (s : HackRFSource) (t : hackrf_transfer)
    (hdone : s.m_isDone = false) (hflag : s.m_didRetune = false)
    (hlt : t.count < s.m_sampleCount) (hk : s.m_bufferIndex < s.m_sampleCount)
    (hover : s.m_buffer.length < 2 * s.m_bufferIndex + D.sizeof_fftwf_complex * t.count) :
    s.copyDefined D now t = false := by
  rw [copyDefined_clear D now s t hdone hflag, if_pos ⟨hlt, hk⟩]
  have : ¬ (2 * s.m_bufferIndex + D.sizeof_fftwf_complex * t.count ≤ s.m_buffer.length) := by
    omega
  simp [this]

/-- Under the C++ standard the constructor of the session used below is undefined: it calls
`set_sample_rate`, which has no `return` statement. -/
theorem new_std_undefined :
    HackRFSource.new_std libhackrf "" 20000000 4192 600000000 620000000 = .undefined := by
  decide

/-! ## The claims -/

/-- C1 (exact fill), evaluated at capacity 4192, empty block, flag clear, session not done,
and the partition `[100, 4092]`, each chunk in a transfer buffer of 262144 bytes. The first
invocation copies inside the capture buffer and leaves the cursor at 100. The second asks
`memcpy` for `sizeof(fftwf_complex) * 4092 = 32736` bytes from byte 200 of the 8384-byte
capture buffer, 32936 bytes in all: the copy leaves the array, the invocation is undefined,
and so is the whole run. -/
theorem exact_fill_overruns_buffer :
    (wideChunks.map (fun c => c.2.count)).sum = 4192 ∧
    (∃ s1,
      (streaming 20000000 4192).hackRF_rx_callback_std libhackrf 2 1000 (transferIn 200 1)
        = .ok s1 ∧
      s1.m_bufferIndex = 100 ∧ s1.m_buffer.length = 8384 ∧
      2 * 100 + libhackrf.sizeof_fftwf_complex * (transferIn 8184 2).count = 32936 ∧
      s1.copyDefined libhackrf 1001 (transferIn 8184 2) = false ∧
      s1.hackRF_rx_callback_std libhackrf 2 1001 (transferIn 8184 2) = .undefined) ∧
    (streaming 20000000 4192).feed_std libhackrf 2 wideChunks = .undefined := by
  obtain ⟨s1, h1, hb1, hg1, hf1⟩ := fill_step libhackrf 2 1000 (streaming 20000000 4192)
    (transferIn 200 1) rfl rfl (by decide) (by decide) (by decide)
  have hd0 : (streaming 20000000 4192).copyDefined libhackrf 1000 (transferIn 200 1) = true :=
    copyDefined_inside libhackrf 1000 _ _ rfl rfl
      (by rw [streaming_buffer_length 20000000 4192]; decide)
      (by rw [transferIn_length]; decide)
  have h1s : (streaming 20000000 4192).hackRF_rx_callback_std libhackrf 2 1000
      (transferIn 200 1) = .ok s1 := by
    rw [HackRFSource.hackRF_rx_callback_std, hd0, if_pos rfl, h1]
  have hl1 : s1.m_buffer.length = 8384 := by
    rw [fill_step_length libhackrf 2 1000 (streaming 20000000 4192) s1 (transferIn 200 1)
      rfl rfl (by decide) (by decide) (by decide) h1]
    exact streaming_buffer_length 20000000 4192
  have hi1 : s1.m_bufferIndex = 100 := by rw [hb1]; decide
  have hc1 : s1.m_sampleCount = 4192 := by
    show s1.toSignalSource.m_sampleCount = 4192
    rw [hg1]; rfl
  have hdn1 : s1.m_isDone = false := by
    show s1.toSignalSource.m_isDone = false
    rw [hg1]; rfl
  have hd1 : s1.copyDefined libhackrf 1001 (transferIn 8184 2) = false :=
    copyDefined_outside libhackrf 1001 s1 _ hdn1 hf1 (by rw [hc1]; decide)
      (by rw [hc1, hi1]; decide) (by rw [hl1, hi1]; decide)
  have h2s : s1.hackRF_rx_callback_std libhackrf 2 1001 (transferIn 8184 2) = .undefined := by
    rw [HackRFSource.hackRF_rx_callback_std, hd1]
    rfl
  refine ⟨by decide, ⟨s1, h1s, hi1, hl1, by decide, hd1, h2s⟩, ?_⟩
  show HackRFSource.feed_std libhackrf 2 (streaming 20000000 4192)
    [(1000, transferIn 200 1), (1001, transferIn 8184 2)] = .undefined
  rw [HackRFSource.feed_std, h1s]
  show HackRFSource.feed_std libhackrf 2 s1 [(1001, transferIn 8184 2)] = .undefined
  rw [HackRFSource.feed_std, h2s]




/-- C2 (settling discard), evaluated at `sampleRate = 8e6` (discard 40000), capacity 50000,
empty block, flag set, a chunk of 40001 samples. The callback clears the flag and advances
the cursor by 1, but what it stores is the sample 0 of the chunk, `(7, 9)`, at block
position 40000; the sample 40000 of the chunk, `(5, 6)`, the only one behind the discard
window, is nowhere in the block. -/
theorem settling_discard_keeps_head :
    ∃ s1,
      (armed (streaming 8000000 50000)).hackRF_rx_callback libhackrf 1 1234 marked = .ok s1 ∧
      s1.m_didRetune = false ∧ s1.m_bufferIndex = 1 ∧ s1.m_sampleQueue = [] ∧
      (s1.m_buffer.drop 80000).take 2 = [7, 9] ∧
      (marked.buffer.drop 80000).take 2 = [5, 6] ∧ 5 ∉ s1.m_buffer := by
  have hs : (armed (streaming 8000000 50000)).settle marked 1234 =
      ({ armed (streaming 8000000 50000) with m_didRetune := false },
        { startIndex := 40000, count := 1, startTime := .value 1234 }) := by
    rw [settle_armed _ _ _ rfl]
    exact congrArg (Prod.mk _) (by decide)
  have h := callback_small libhackrf 1 1234 (armed (streaming 8000000 50000)) marked _ _
    rfl hs (by decide)
  rw [copyIn_eq _ _ _ _ (by decide), flush_skip _ _ _ _ (by decide)] at h
  refine ⟨_, h, rfl, by decide, rfl, ?_, ?_, ?_⟩
  · dsimp only
    have e : (80000 : Nat) = 2 * 40000 := by decide
    have hb : (armed (streaming 8000000 50000)).m_buffer.length = 2 * 50000 :=
      streaming_buffer_length 8000000 50000
    have hm := memcpy_drop_take (armed (streaming 8000000 50000)).m_buffer (2 * 40000)
      marked.buffer (libhackrf.sizeof_fftwf_complex * 1) 2 (by decide)
      (by rw [marked_length]; decide) (by rw [hb]; decide)
    rw [e, hm]
    decide
  · show (([7, 9] ++ List.replicate 79998 0 ++ [5, 6]).drop 80000).take 2 = [5, 6]
    have hl : ([7, 9] ++ List.replicate 79998 0).length = 80000 := by
      rw [List.length_append, List.length_replicate]; rfl
    rw [← hl, List.drop_left]
    rfl
  · dsimp only
    intro hmem
    rcases mem_memcpy _ _ _ _ _ hmem with h5 | h5
    · have hz : (armed (streaming 8000000 50000)).m_buffer = List.replicate (2 * 50000) 0 :=
        rfl
      rw [hz] at h5
      exact absurd (List.eq_of_mem_replicate h5) (by decide)
    · have ht : List.take (libhackrf.sizeof_fftwf_complex * 1) marked.buffer
          = [7, 9, 0, 0, 0, 0, 0, 0] := by decide
      rw [ht] at h5
      exact absurd h5 (by decide)

/-- C3 (oversized chunk), evaluated at capacity 4192 and one transfer of 262144 bytes
(131072 samples), flag clear. The callback emits 32 envelopes, one per stride of 4192
samples, while `floor(131072 / 4192) = 31`; of the last one only 2240 bytes lie inside the
transfer, a full slice being 8384 bytes. -/
theorem oversized_chunk_emits_short_slice :
    ∃ s1,
      (streaming 20000000 4192).hackRF_rx_callback libhackrf 33 0 (transferOf 262144 1)
        = .ok s1 ∧
      s1.m_sampleQueue = strides (transferOf 262144 1) 4192 600000000 .indeterminate 0 32 ∧
      s1.m_sampleQueue.length = 32 ∧ 131072 / 4192 = 31 ∧
      (slice (transferOf 262144 1) 4192 (31 * 4192)).length = 2240 := by
  have h := callback_large libhackrf 33 0 (streaming 20000000 4192) (transferOf 262144 1) _ _
    rfl (settle_clear _ _ _ rfl) (by decide)
  rw [appendLoop_run _ _ _ _ 32 33 0 _ (by decide)
    (by intro j hj
        show 0 + j * 4192 < (transferOf 262144 1).count
        rw [show (transferOf 262144 1).count = 131072 by decide]
        omega)
    (by decide) (by decide)] at h
  have hq : strides (transferOf 262144 1) 4192 600000000 .indeterminate 0 32 =
      [] ++ strides (transferOf 262144 1) 4192 600000000 .indeterminate 0 32 := rfl
  refine ⟨_, h, hq.symm ▸ rfl, ?_, by decide, ?_⟩
  · show ([] ++ strides (transferOf 262144 1) 4192 600000000 .indeterminate 0 32).length = 32
    rw [List.nil_append, strides_length]
  · rw [slice_length, transferOf_length]
    decide

/-- C4 as amended (frequency plan). For whole frequencies `start ≤ stop < 2^32` Hz, a
sample rate above 0 and a count `floor((stop - start) / rate) + 1` below `2^32`, the
constructor (on a device whose calls succeed) builds a plan of exactly that length whose
entry `i` is `start + i * rate`; the plan is strictly increasing. -/
theorem frequency_plan_values (rate cnt start stop : Nat) (hrate : 0 < rate)
    (hle : start ≤ stop) (hstop : stop < 4294967296)
    (hcount : (stop - start) / rate + 1 < 4294967296) :
    ∃ b, BladerfSource.new libbladeRF rate cnt (start : Int) (stop : Int) = .ok b ∧
      b.m_numFrequencies = (stop - start) / rate + 1 ∧
      b.m_frequencies.length = (stop - start) / rate + 1 ∧
      (∀ i, i < (stop - start) / rate + 1 → b.m_frequencies.get? i = some (start + i * rate)) ∧
      b.m_frequencies.Pairwise (· < ·) := by
  have hn := numFrequencies_eq rate start stop hrate hle hcount
  have hbound : ∀ i, i < (stop - start) / rate + 1 → start + i * rate < 4294967296 := by
    intro i hi
    have h1 : i * rate ≤ (stop - start) / rate * rate := Nat.mul_le_mul_right _ (by omega)
    have h2 : (stop - start) / rate * rate ≤ stop - start := Nat.div_mul_le_self _ _
    omega
  have hp : frequencyPlan rate (start : Int) (stop : Int) =
      some ((List.range ((stop - start) / rate + 1)).map (fun i => start + i * rate)) := by
    unfold frequencyPlan
    rw [hn]
    exact fillFrequencies_eq rate start _ hbound
  refine ⟨{ m_sampleRate := rate, m_sampleCount := cnt,
            m_numFrequencies := (stop - start) / rate + 1,
            m_frequencies := (List.range ((stop - start) / rate + 1)).map
              (fun i => start + i * rate),
            m_quickTunes := (List.range ((stop - start) / rate + 1)).map
              (fun i => start + i * rate) }, ?_, rfl, ?_, ?_, ?_⟩
  · unfold BladerfSource.new
    rw [hn, hp]
    simp [libbladeRF, configure_module, populate_quick_tunes_fails]
  · simp
  · intro i hi
    simp [List.getElem?_range, hi]
  · apply List.Pairwise.map _ _ (List.pairwise_lt_range _)
    intro a b hab
    have : a * rate < b * rate := Nat.mul_lt_mul_of_pos_right hab hrate
    omega

/-- Witness for C4: `start = 600e6`, `stop = 620e6`, `rate = 10e6`. -/
theorem frequency_plan_values_witness :
    (0 < 10000000 ∧ 600000000 ≤ 620000000 ∧ 620000000 < 4294967296) ∧
    ∃ b, BladerfSource.new libbladeRF 10000000 4192 ((600000000 : Nat) : Int)
        ((620000000 : Nat) : Int) = .ok b ∧
      b.m_numFrequencies = (620000000 - 600000000) / 10000000 + 1 ∧
      b.m_frequencies.length = (620000000 - 600000000) / 10000000 + 1 ∧
      (∀ i, i < (620000000 - 600000000) / 10000000 + 1 →
        b.m_frequencies.get? i = some (600000000 + i * 10000000)) ∧
      b.m_frequencies.Pairwise (· < ·) :=
  ⟨by decide, frequency_plan_values 10000000 4192 600000000 620000000 (by decide) (by decide)
    (by decide) (by decide)⟩

/-- The plan of the C4 witness is `[600e6, 610e6, 620e6]`. -/
theorem plan_example : frequencyPlan 10000000 600000000 620000000
    = some [600000000, 610000000, 620000000] := by decide

/-- Counterexample to C4 as stated: `start = 0`, `stop = 4.32e9`, `rate = 40e6`. The plan has
109 entries and entry 108 is 25032704, not `0 + 108 * 40e6 = 4320000000`: the product
`i * sampleRate` is 32-bit arithmetic. -/
theorem plan_entry_wraps :
    ∃ b, BladerfSource.new libbladeRF 40000000 4192 0 4320000000 = .ok b ∧
      b.m_numFrequencies = 109 ∧ b.m_frequencies.get? 108 = some 25032704 ∧
      0 + 108 * 40000000 = 4320000000 := by
  refine ⟨_, rfl, rfl, by decide, by decide⟩

/-- C5 as amended (state `Done`). In state `Done`, `hackRF_rx_callback` and `Retune` leave
the state `Done` whenever they return (the callback returns at once when the completion
condition holds, `Retune` returns when the driver accepts the frequency); `Start` and
`StartStreaming` move the session to `Streaming` when `hackrf_start_rx` succeeds, and
`GetNextSamples` sets `Streaming` before it waits. -/
theorem done_kept_by_callback_left_by_start (D : Driver) (fuel now f : Nat) (s : HackRFSource)
    (t : hackrf_transfer) (hdone : s.m_streamingState = .Done) :
    (∀ s1, s.hackRF_rx_callback D fuel now t = .ok s1 → s1.m_streamingState = .Done) ∧
    (s.m_isDone = true →
      s.hackRF_rx_callback D fuel now t = .ok { s with m_streamingState := .Done }) ∧
    (∀ s1, s.Retune D f = .ok s1 → s1.m_streamingState = .Done) ∧
    (D.hackrf_set_freq f = 0 → s.Retune D f = .ok { s with tunedTo := some f }) ∧
    (D.hackrf_start_rx = 0 →
      s.Start D = .ok { s with m_streamingState := .Streaming } ∧
      s.StartStreaming D = .ok { s with m_streamingState := .Streaming }) ∧
    s.GetNextSamples_enter.m_streamingState = .Streaming := by
  refine ⟨?_, ?_, ?_, ?_, ?_, rfl⟩
  · intro s1 h
    rcases callback_state D fuel now s s1 t h with h1 | h1
    · exact h1
    · rw [h1, hdone]
  · intro h
    simp [HackRFSource.hackRF_rx_callback, SignalSource.GetIsDone, h]
  · intro s1 h
    unfold HackRFSource.Retune at h
    by_cases hf : D.hackrf_set_freq f = 0
    · simp [hf] at h
      rw [← h]; exact hdone
    · simp [hf] at h
  · intro hf
    simp [HackRFSource.Retune, hf]
  · intro hs
    simp [HackRFSource.StartStreaming, HackRFSource.Start, hdone, hs]

/-- Witness for C5: the constructed session put in state `Done`. -/
theorem done_kept_by_callback_left_by_start_witness :
    (finished (constructed 20000000 4192)).m_streamingState = .Done ∧
    ((∀ s1, (finished (constructed 20000000 4192)).hackRF_rx_callback libhackrf 2 0
        (transferOf 200 1) = .ok s1 → s1.m_streamingState = .Done) ∧
    ((finished (constructed 20000000 4192)).m_isDone = true →
      (finished (constructed 20000000 4192)).hackRF_rx_callback libhackrf 2 0 (transferOf 200 1)
        = .ok { finished (constructed 20000000 4192) with m_streamingState := .Done }) ∧
    (∀ s1, (finished (constructed 20000000 4192)).Retune libhackrf 620000000 = .ok s1 →
      s1.m_streamingState = .Done) ∧
    (libhackrf.hackrf_set_freq 620000000 = 0 →
      (finished (constructed 20000000 4192)).Retune libhackrf 620000000
        = .ok { finished (constructed 20000000 4192) with tunedTo := some 620000000 }) ∧
    (libhackrf.hackrf_start_rx = 0 →
      (finished (constructed 20000000 4192)).Start libhackrf
        = .ok { finished (constructed 20000000 4192) with m_streamingState := .Streaming } ∧
      (finished (constructed 20000000 4192)).StartStreaming libhackrf
        = .ok { finished (constructed 20000000 4192) with m_streamingState := .Streaming }) ∧
    (finished (constructed 20000000 4192)).GetNextSamples_enter.m_streamingState
      = .Streaming) :=
  ⟨rfl, done_kept_by_callback_left_by_start libhackrf 2 0 620000000
    (finished (constructed 20000000 4192)) (transferOf 200 1) rfl⟩

/-- Counterexample to C5 as stated: `Start()` in state `Done` moves the session to
`Streaming`. -/
theorem start_leaves_done :
    ∃ s1, (finished (constructed 20000000 4192)).Start libhackrf = .ok s1 ∧
      s1.m_streamingState = .Streaming :=
  ⟨_, rfl, rfl⟩

/-- C6 (timestamp), evaluated twice. First block after construction, capacity 4192, filled by
the chunks `[100, 4092]`: the capture is the start of a sweep, and the timestamp of its
envelope is the never-assigned local `startTime`. Then a session after a retune
(`sampleRate = 8e6`, capacity 50000, cursor of the plan on the first frequency): the first
transfer records time 1000 at the settling discard and leaves the cursor at 20000, the
second one completes the block, and the timestamp of the envelope is again the
never-assigned local of that invocation, not 1000. -/
theorem block_timestamp_indeterminate :
    (∃ s1 e, (streaming 20000000 4192).feed libhackrf 2 twoChunks = .ok s1 ∧
      s1.m_sampleQueue = [e] ∧ (streaming 20000000 4192).GetIsScanStart = true ∧
      e.timestamp = .indeterminate) ∧
    (∃ s1 s2 e,
      (armed (streaming 8000000 50000)).hackRF_rx_callback libhackrf 1 1000
        (transferOf 120000 1) = .ok s1 ∧
      s1.m_bufferIndex = 20000 ∧
      s1.hackRF_rx_callback libhackrf 1 1001 (transferOf 60000 2) = .ok s2 ∧
      s2.m_sampleQueue = [e] ∧ (armed (streaming 8000000 50000)).GetIsScanStart = true ∧
      e.timestamp = .indeterminate) := by
  constructor
  · obtain ⟨s1, h1, h2, _⟩ := fill_run libhackrf 2 (by decide) (fun _ => rfl) (by decide)
      twoChunks (streaming 20000000 4192) (by decide) rfl rfl (by decide)
      (streaming_buffer_length 20000000 4192) twoChunks_ok (by decide)
    exact ⟨s1, _, h1, h2, rfl, rfl⟩
  · obtain ⟨s1, h1, hb1, hg1, hf1, _⟩ := armed_step libhackrf 1 1000
      (armed (streaming 8000000 50000)) (transferOf 120000 1) rfl rfl (by decide)
      (by decide) (by decide)
    have hi1 : s1.m_bufferIndex = 20000 := by rw [hb1]; decide
    have hc1 : s1.m_sampleCount = 50000 := by
      show s1.toSignalSource.m_sampleCount = 50000
      rw [hg1]; rfl
    obtain ⟨s2, h2, hq2, _⟩ := flush_step libhackrf 1 1001 s1 (transferOf 60000 2)
      (fun _ => rfl)
      (by show s1.toSignalSource.m_isDone = false
          rw [hg1]; rfl)
      hf1 (by rw [hc1]; decide) (by rw [hc1, hi1]; decide) (by rw [hc1, hi1]; decide)
    refine ⟨s1, s2, ⟨memcpy s1.m_buffer (2 * s1.m_bufferIndex) (transferOf 60000 2).buffer
        (libhackrf.sizeof_fftwf_complex * (transferOf 60000 2).count), s1.GetCurrentFrequency,
      if s1.GetIsScanStart then .indeterminate else .value 0⟩, h1, hi1, h2, ?_, rfl, ?_⟩
    · rw [hq2]
      show s1.toSignalSource.m_sampleQueue ++ _ = _
      rw [hg1]
      rfl
    · show (if s1.toSignalSource.GetIsScanStart = true then TimeVal.indeterminate
        else TimeVal.value 0) = TimeVal.indeterminate
      rw [hg1]
      rfl

/-- C7 (retune arms the flag), evaluated at `HackRFSource("", 20e6, 4192, 600e6, 620e6)` on
a device whose calls succeed. The constructor returns with the device tuned to 600e6 and
`m_didRetune` false; the retune at the end of `GetNextSamples` tunes to 620e6 and leaves
`m_didRetune` false as well. -/
theorem retune_leaves_flag_clear :
    HackRFSource.new libhackrf "" 20000000 4192 600000000 620000000
      = .ok (constructed 20000000 4192) ∧
    (constructed 20000000 4192).tunedTo = some 600000000 ∧
    (constructed 20000000 4192).m_didRetune = false ∧
    ∃ s1, (finished (constructed 20000000 4192)).GetNextSamples_leave libhackrf
        = some (.ok s1) ∧
      s1.tunedTo = some 620000000 ∧ s1.m_didRetune = false :=
  ⟨rfl, rfl, rfl, _, rfl, rfl, rfl⟩

/-- C8 as amended (inverted band). For start and stop frequencies that are whole numbers
of Hz, a sample rate above 0 and `start - 2 * rate < stop < start`, the constructor (on a
device whose calls succeed) ends without error: it computes a frequency count of 0 and
builds an empty frequency list. -/
theorem inverted_band_builds_empty_plan (rate cnt : Nat) (start stop : Int)
    (hrate : 0 < rate) (hlt : stop < start) (hnear : start - stop < 2 * rate) :
    BladerfSource.new libbladeRF rate cnt start stop =
      .ok { m_sampleRate := rate, m_sampleCount := cnt, m_numFrequencies := 0,
            m_frequencies := [], m_quickTunes := [] } := by
  have hv : Int.tdiv (stop - start + rate) rate = 0 := by
    rcases Int.lt_or_le (stop - start + rate) 0 with hneg | hpos
    · have h1 : Int.tdiv (-(stop - start + rate)) (rate : Int) = 0 :=
        Int.tdiv_eq_zero_of_lt (by omega) (by omega)
      rw [Int.neg_tdiv] at h1
      omega
    · exact Int.tdiv_eq_zero_of_lt hpos (by omega)
  have hn : numFrequencies rate start stop = some 0 := by
    unfold numFrequencies
    rw [if_neg (by omega)]
    simp only [hv]
    rfl
  have hp : frequencyPlan rate start stop = some [] := by
    unfold frequencyPlan
    rw [hn]
    rfl
  unfold BladerfSource.new
  rw [hn, hp]
  simp [libbladeRF, configure_module, populate_quick_tunes_fails]

/-- Witness for C8: `start = 620e6`, `stop = 610e6`, `rate = 10e6`. -/
theorem inverted_band_builds_empty_plan_witness :
    ((0 : Nat) < 10000000 ∧ (610000000 : Int) < 620000000) ∧
    BladerfSource.new libbladeRF 10000000 4192 620000000 610000000 =
      .ok { m_sampleRate := 10000000, m_sampleCount := 4192, m_numFrequencies := 0,
            m_frequencies := [], m_quickTunes := [] } :=
  ⟨by decide, inverted_band_builds_empty_plan 10000000 4192 620000000 610000000 (by decide)
    (by decide) (by decide)⟩

/-- Counterexample to C8 as stated: `start = 600e6`, `stop = 599e6`, `rate = 10e6`. The
constructor does not end in `handle_error`; it returns with count 0 and an empty list. -/
theorem no_band_validation :
    BladerfSource.new libbladeRF 10000000 4192 600000000 599000000 =
      .ok { m_sampleRate := 10000000, m_sampleCount := 4192, m_numFrequencies := 0,
            m_frequencies := [], m_quickTunes := [] } := by
  decide

/-- C9 (cursor invariant), evaluated at capacity 200000 and two transfers of 262144 bytes
(131072 samples each), flag clear. After the first the cursor is 131072, within the
capacity; after the second it is 262144, past the capacity, and nothing was emitted. -/
theorem cursor_passes_capacity :
    ∃ s1 s2,
      (streaming 20000000 200000).hackRF_rx_callback libhackrf 1 0 (transferOf 262144 1)
        = .ok s1 ∧
      s1.m_bufferIndex = 131072 ∧ s1.m_sampleCount = 200000 ∧
      s1.hackRF_rx_callback libhackrf 1 0 (transferOf 262144 1) = .ok s2 ∧
      s2.m_bufferIndex = 262144 ∧ s2.m_sampleCount = 200000 ∧ s2.m_sampleQueue = [] := by
  obtain ⟨s1, h1, hb1, hg1, hf1⟩ := fill_step libhackrf 1 0 (streaming 20000000 200000)
    (transferOf 262144 1) rfl rfl (by decide) (by decide) (by decide)
  have hc1 : s1.m_sampleCount = 200000 := by
    show s1.toSignalSource.m_sampleCount = 200000
    rw [hg1]; rfl
  have hi1 : s1.m_bufferIndex = 131072 := by rw [hb1]; decide
  obtain ⟨s2, h2, hb2, hg2, _⟩ := fill_step libhackrf 1 0 s1 (transferOf 262144 1)
    (by show s1.toSignalSource.m_isDone = false
        rw [hg1]; rfl)
    hf1 (by rw [hc1]; decide) (by rw [hc1, hi1]; decide) (by rw [hc1, hi1]; decide)
  refine ⟨s1, s2, h1, hi1, hc1, h2, ?_, ?_, ?_⟩
  · rw [hb2, hi1]; decide
  · show s2.toSignalSource.m_sampleCount = 200000
    rw [hg2, hg1]; rfl
  · show s2.toSignalSource.m_sampleQueue = []
    rw [hg2, hg1]; rfl

/-- C10 (discard underflow), evaluated at `sampleRate = 20e6` (discard 100000), capacity
4192, flag set, a transfer of 10 samples. `count - discardCount` wraps to 4294867306 and the
callback emits 1024539 envelopes; the flag is cleared and the cursor stays 0. -/
theorem discard_underflow_wraps :
    ∃ s1,
      (armed (streaming 20000000 4192)).hackRF_rx_callback libhackrf 1024540 77
        (transferOf 20 1) = .ok s1 ∧
      (10 + UINT32 - 20000000 / 200) % UINT32 = 4294867306 ∧
      s1.m_sampleQueue.length = 1024539 ∧
      s1.m_didRetune = false ∧ s1.m_bufferIndex = 0 := by
  have hs : (armed (streaming 20000000 4192)).settle (transferOf 20 1) 77 =
      ({ armed (streaming 20000000 4192) with m_didRetune := false },
        { startIndex := 100000, count := 4294867306, startTime := .value 77 }) := by
    rw [settle_armed _ _ _ rfl]
    exact congrArg (Prod.mk _) (by decide)
  have h := callback_large libhackrf 1024540 77 (armed (streaming 20000000 4192))
    (transferOf 20 1) _ _ rfl hs (by decide)
  rw [appendLoop_run _ _ _ _ 1024539 1024540 0 _ (by decide)
    (by intro j hj
        show 0 + j * 4192 < 4294867306
        omega)
    (by decide) (by decide)] at h
  refine ⟨_, h, by decide, ?_, rfl, rfl⟩
  show ([] ++ strides (transferOf 20 1) 4192 600000000 (.value 77) 0 1024539).length = 1024539
  rw [List.nil_append, strides_length]

end Scanner
